import Mathlib

/-!
Verification of the todo application (`homework/module_01/todos`).

The repository exposes one entity, `Todo`, through five HTTP handlers
(`views.py`): a list view, a create form, an update form, a delete
confirmation flow, and a `toggle_resolved` function.  The persistence
layer is embedded as an explicit store (a list of todos plus a
primary-key counter and a logical clock standing for the system
timestamps), and each handler becomes a pure function from a store and
request data to an HTTP response and the next store.
-/

/-- Modelled from the spec: the repository's `models.py` is not under
`src/`.  Per section 3 of the spec the Todo entity has a required short
text `title`, an optional text `description` defaulting to empty, an
optional `due_date`, a boolean `resolved` defaulting to false, and
system-managed `created_at` / `updated_at` timestamps.  Dates and
timestamps are abstracted as naturals. -/
structure Todo where
  pk : Nat
  title : String
  description : String
  due_date : Option Nat
  resolved : Bool
  created_at : Nat
  updated_at : Nat
deriving Repr, DecidableEq

/-- The persistent state: the stored todos, the next primary key the
database will assign, and a logical clock supplying timestamps. -/
structure Store where
  todos : List Todo
  nextPk : Nat
  clock : Nat
deriving Repr, DecidableEq

/-- HTTP responses the handlers produce: a 200 page render, a 302
redirect to a named route, or a 404. -/
inductive HttpResponse where
  | ok
  | redirect (target : String)
  | notFound
deriving Repr, DecidableEq

/-- The numeric status code of a response. -/
def HttpResponse.status : HttpResponse → Nat
  | .ok => 200
  | .redirect _ => 302
  | .notFound => 404

/-- Submitted POST data for the create and update forms.  Each field is
`none` when absent from the submission.  `resolved` may be present in
the raw POST data even though the create form does not declare it. -/
structure FormData where
  title : Option String
  description : Option String
  due_date : Option Nat
  resolved : Option Bool
deriving Repr, DecidableEq

/-- Whether a todo with the given primary key is stored. -/
def Store.hasPk (s : Store) (pk : Nat) : Bool :=
  s.todos.any (fun t => t.pk == pk)

/-- Database lookup by primary key (first match). -/
def findTodo (s : Store) (pk : Nat) : Option Todo :=
  s.todos.find? (fun t => t.pk == pk)

/-- Well-formedness of the store: primary keys are unique, as the
database guarantees. -/
def Store.WF (s : Store) : Prop :=
  (s.todos.map Todo.pk).Nodup

/-- Insert a todo into a list kept in descending `created_at` order. -/
def insertDesc (t : Todo) : List Todo → List Todo
  | [] => [t]
  | u :: us => if u.created_at ≤ t.created_at then t :: u :: us else u :: insertDesc t us

/-- Sort todos by `created_at` descending (insertion sort). -/
def insertionSortDesc : List Todo → List Todo
  | [] => []
  | t :: ts => insertDesc t (insertionSortDesc ts)

/-- `TodoListView` (views.py lines 6-9): renders all stored todos.
Modelled from the spec for the ordering: `models.py` is not under
`src/`, and per the spec list views present todos in descending
creation order, so the queryset is the stored todos sorted by
`created_at` descending. -/
def todoListView (s : Store) : HttpResponse × List Todo :=
  (.ok, insertionSortDesc s.todos)

/-- `TodoCreateView` POST (views.py lines 11-15): the form declares the
fields `title`, `description`, `due_date` only — `resolved` is never
read.  Validation (the title is required and may not be blank) is
modelled from the spec since `models.py` is not under `src/`.  An
invalid submission re-renders the form with status 200 and stores
nothing; a valid one inserts a todo with `resolved` false, the
description defaulting to empty, and redirects to the list. -/
def todoCreatePost (s : Store) (d : FormData) : HttpResponse × Store :=
  match d.title with
  | none => (.ok, s)
  | some ttl =>
    if ttl = "" then (.ok, s)
    else
      let newTodo : Todo :=
        { pk := s.nextPk
          title := ttl
          description := d.description.getD ""
          due_date := d.due_date
          resolved := false
          created_at := s.clock
          updated_at := s.clock }
      (.redirect "todo_list",
       { todos := s.todos ++ [newTodo], nextPk := s.nextPk + 1, clock := s.clock + 1 })

/-- `TodoUpdateView` POST (views.py lines 17-21): 404 when the primary
key does not identify a stored todo; otherwise the form declares
`title`, `description`, `due_date`, `resolved`, with the same title
validation as the create form.  A valid submission overwrites those
fields (an absent checkbox reads as false, an absent description as
empty) and redirects to the list. -/
def todoUpdatePost (s : Store) (pk : Nat) (d : FormData) : HttpResponse × Store :=
  if s.hasPk pk then
    match d.title with
    | none => (.ok, s)
    | some ttl =>
      if ttl = "" then (.ok, s)
      else
        let upd : Todo → Todo := fun t =>
          { t with
            title := ttl
            description := d.description.getD ""
            due_date := d.due_date
            resolved := d.resolved.getD false
            updated_at := s.clock }
        (.redirect "todo_list",
         { s with
           todos := s.todos.map (fun t => if t.pk == pk then upd t else t)
           clock := s.clock + 1 })
  else (.notFound, s)

/-- `TodoDeleteView` POST (views.py lines 23-26): 404 when the primary
key does not identify a stored todo; otherwise the todo is removed and
the handler redirects to the list. -/
def todoDeletePost (s : Store) (pk : Nat) : HttpResponse × Store :=
  if s.hasPk pk then
    (.redirect "todo_list", { s with todos := s.todos.filter (fun t => t.pk != pk) })
  else (.notFound, s)

/-- `toggle_resolved` (views.py lines 28-32): `get_object_or_404`
yields 404 when the primary key does not identify a stored todo;
otherwise the todo's `resolved` flag is negated, the todo is saved
(refreshing `updated_at`), and the handler redirects to the list. -/
def toggle_resolved (s : Store) (pk : Nat) : HttpResponse × Store :=
  match s.todos.find? (fun t => t.pk == pk) with
  | none => (.notFound, s)
  | some _ =>
    let upd : Todo → Todo := fun t => { t with resolved := !t.resolved, updated_at := s.clock }
    (.redirect "todo_list",
     { s with
       todos := s.todos.map (fun t => if t.pk == pk then upd t else t)
       clock := s.clock + 1 })

/-- A list of todos is in descending `created_at` order. -/
def SortedDesc : List Todo → Prop
  | [] => True
  | [_] => True
  | a :: b :: rest => b.created_at ≤ a.created_at ∧ SortedDesc (b :: rest)

/-- Every stored todo has a non-empty title (the spec's invariant). -/
def TitlesNonEmpty (s : Store) : Prop :=
  ∀ t ∈ s.todos, t.title ≠ ""

/-- A concrete unresolved todo used to instantiate theorems. -/
def sampleTodo : Todo :=
  { pk := 1
    title := "write the report"
    description := ""
    due_date := none
    resolved := false
    created_at := 0
    updated_at := 0 }

/-- A concrete store holding `sampleTodo`. -/
def sampleStore : Store :=
  { todos := [sampleTodo], nextPk := 2, clock := 1 }

/-- A form submission with an empty title, used to instantiate theorems. -/
def emptyTitleForm : FormData :=
  { title := some "", description := some "x", due_date := none, resolved := none }

/-! ## Helper lemmas on pk-keyed lists -/

theorem find?_pk_of_mem (l : List Todo) (t : Todo) (pk : Nat)
    (hnd : (l.map Todo.pk).Nodup) (hmem : t ∈ l) (hpk : t.pk = pk) :
    l.find? (fun x => x.pk == pk) = some t := by
  induction l with
  | nil => cases hmem
  | cons a l ih =>
    simp only [List.map_cons, List.nodup_cons] at hnd
    rcases List.mem_cons.mp hmem with h | h
    · subst h
      exact List.find?_cons_of_pos _ (by simp [hpk])
    · have hne : ¬ a.pk = pk := by
        intro he
        exact hnd.1 (by rw [he, ← hpk]; exact List.mem_map_of_mem Todo.pk h)
      rw [List.find?_cons_of_neg _ (by simp [hne])]
      exact ih hnd.2 h

theorem find?_pk_map_update (l : List Todo) (pk : Nat) (upd : Todo → Todo)
    (hupd : ∀ t, (upd t).pk = t.pk) :
    (l.map (fun t => if t.pk == pk then upd t else t)).find? (fun t => t.pk == pk) =
      (l.find? (fun t => t.pk == pk)).map upd := by
  induction l with
  | nil => rfl
  | cons a l ih =>
    by_cases h : a.pk = pk
    · simp only [List.map_cons, if_pos (by simp [h] : (a.pk == pk) = true)]
      rw [List.find?_cons_of_pos _ (by simp [hupd, h]),
          List.find?_cons_of_pos _ (by simp [h])]
      rfl
    · simp only [List.map_cons, if_neg (by simp [h] : ¬ (a.pk == pk) = true)]
      rw [List.find?_cons_of_neg _ (by simp [h]), List.find?_cons_of_neg _ (by simp [h])]
      exact ih

theorem map_update_pks (l : List Todo) (pk : Nat) (upd : Todo → Todo)
    (hupd : ∀ t, (upd t).pk = t.pk) :
    (l.map (fun t => if t.pk == pk then upd t else t)).map Todo.pk = l.map Todo.pk := by
  induction l with
  | nil => rfl
  | cons a l ih =>
    simp only [List.map_cons, ih]
    by_cases h : a.pk = pk <;> simp [h, hupd]

theorem hasPk_iff (s : Store) (pk : Nat) :
    s.hasPk pk = true ↔ ∃ t ∈ s.todos, t.pk = pk := by
  simp [Store.hasPk, List.any_eq_true]

theorem find?_pk_eq_none (l : List Todo) (pk : Nat)
    (h : ∀ t ∈ l, t.pk ≠ pk) :
    l.find? (fun t => t.pk == pk) = none := by
  rw [List.find?_eq_none]
  intro t ht
  simp [h t ht]

/-! ## Claim theorems -/

/-- C1: for every existing Todo with primary key pk, a GET to the toggle
route flips that Todo's resolved flag, saves it, and responds with a
redirect to the list page. -/
theorem toggle_flips (s : Store) (pk : Nat) (t : Todo)
    (hwf : s.WF) (hmem : t ∈ s.todos) (hpk : t.pk = pk) :
    (toggle_resolved s pk).1 = HttpResponse.redirect "todo_list" ∧
    ∃ u, findTodo (toggle_resolved s pk).2 pk = some u ∧ u.resolved = !t.resolved := by
  have hfind := find?_pk_of_mem s.todos t pk hwf hmem hpk
  simp only [toggle_resolved, hfind]
  refine ⟨trivial, ?_⟩
  simp only [findTodo]
  rw [find?_pk_map_update s.todos pk
        (fun t => { t with resolved := !t.resolved, updated_at := s.clock })
        (fun _ => rfl),
      hfind]
  exact ⟨_, rfl, rfl⟩

/-- Witness for C1 at a concrete store. -/
theorem toggle_flips_witness :
    (toggle_resolved sampleStore 1).1 = HttpResponse.redirect "todo_list" ∧
    ∃ u, findTodo (toggle_resolved sampleStore 1).2 1 = some u ∧
      u.resolved = !sampleTodo.resolved :=
  toggle_flips sampleStore 1 sampleTodo (by unfold Store.WF; decide) (by decide) (by decide)

/-- C2: a POST to the create route whose data lacks a title (missing or
empty) is answered with status 200 and stores nothing: the todos are
unchanged. -/
theorem create_invalid_rejected (s : Store) (d : FormData)
    (h : d.title = none ∨ d.title = some "") :
    (todoCreatePost s d).1.status = 200 ∧ (todoCreatePost s d).2 = s := by
  rcases h with h | h <;> simp [todoCreatePost, h, HttpResponse.status]

/-- Witness for C2 at a concrete store and form submission. -/
theorem create_invalid_rejected_witness :
    (todoCreatePost sampleStore emptyTitleForm).1.status = 200 ∧
    (todoCreatePost sampleStore emptyTitleForm).2 = sampleStore :=
  create_invalid_rejected sampleStore emptyTitleForm (Or.inr rfl)

/-- C3: when no stored todo has primary key pk, the update, delete and
toggle routes all answer 404 and leave the store unchanged. -/
theorem missing_pk_not_found (s : Store) (pk : Nat) (d : FormData)
    (h : ∀ t ∈ s.todos, t.pk ≠ pk) :
    (todoUpdatePost s pk d).1.status = 404 ∧ (todoUpdatePost s pk d).2 = s ∧
    (todoDeletePost s pk).1.status = 404 ∧ (todoDeletePost s pk).2 = s ∧
    (toggle_resolved s pk).1.status = 404 ∧ (toggle_resolved s pk).2 = s := by
  have hhas : s.hasPk pk = false := by
    rw [Bool.eq_false_iff]
    intro hc
    rcases (hasPk_iff s pk).mp hc with ⟨t, ht, hpk⟩
    exact h t ht hpk
  have hfind := find?_pk_eq_none s.todos pk h
  refine ⟨?_, ?_, ?_, ?_, ?_, ?_⟩ <;>
    simp [todoUpdatePost, todoDeletePost, toggle_resolved, hhas, hfind, HttpResponse.status]

/-- Witness for C3 at a concrete store and an absent primary key. -/
theorem missing_pk_not_found_witness :
    (todoUpdatePost sampleStore 7 emptyTitleForm).1.status = 404 ∧
    (todoUpdatePost sampleStore 7 emptyTitleForm).2 = sampleStore ∧
    (todoDeletePost sampleStore 7).1.status = 404 ∧
    (todoDeletePost sampleStore 7).2 = sampleStore ∧
    (toggle_resolved sampleStore 7).1.status = 404 ∧
    (toggle_resolved sampleStore 7).2 = sampleStore :=
  missing_pk_not_found sampleStore 7 emptyTitleForm (by decide)

theorem sortedDesc_tail {a : Todo} : ∀ {l : List Todo}, SortedDesc (a :: l) → SortedDesc l
  | [], _ => trivial
  | _ :: _, h => h.2

theorem sortedDesc_insertDesc (t : Todo) :
    ∀ l : List Todo, SortedDesc l → SortedDesc (insertDesc t l)
  | [], _ => trivial
  | a :: l, h => by
    simp only [insertDesc]
    by_cases hc : a.created_at ≤ t.created_at
    · rw [if_pos hc]
      exact ⟨hc, h⟩
    · rw [if_neg hc]
      have hta : t.created_at ≤ a.created_at := le_of_not_le hc
      have hrec : SortedDesc (insertDesc t l) :=
        sortedDesc_insertDesc t l (sortedDesc_tail h)
      cases l with
      | nil => exact ⟨hta, trivial⟩
      | cons b l2 =>
        simp only [insertDesc] at hrec ⊢
        by_cases hb : b.created_at ≤ t.created_at
        · rw [if_pos hb]
          rw [if_pos hb] at hrec
          exact ⟨hta, hrec⟩
        · rw [if_neg hb]
          rw [if_neg hb] at hrec
          exact ⟨h.1, hrec⟩

theorem insertDesc_perm (t : Todo) : ∀ l : List Todo, List.Perm (insertDesc t l) (t :: l)
  | [] => List.Perm.refl _
  | a :: l => by
    simp only [insertDesc]
    by_cases hc : a.created_at ≤ t.created_at
    · rw [if_pos hc]
    · rw [if_neg hc]
      exact List.Perm.trans (List.Perm.cons a (insertDesc_perm t l)) (List.Perm.swap t a l)

theorem insertionSortDesc_perm : ∀ l : List Todo, List.Perm (insertionSortDesc l) l
  | [] => List.Perm.refl _
  | t :: l =>
    List.Perm.trans (insertDesc_perm t (insertionSortDesc l))
      (List.Perm.cons t (insertionSortDesc_perm l))

theorem insertionSortDesc_sorted : ∀ l : List Todo, SortedDesc (insertionSortDesc l)
  | [] => trivial
  | t :: l => sortedDesc_insertDesc t _ (insertionSortDesc_sorted l)

/-- C4: the list view answers 200 and presents exactly the stored todos
(a permutation of the store) in descending created_at order. -/
theorem list_view_newest_first (s : Store) :
    (todoListView s).1 = HttpResponse.ok ∧
    SortedDesc (todoListView s).2 ∧
    List.Perm (todoListView s).2 s.todos :=
  ⟨rfl, insertionSortDesc_sorted s.todos, insertionSortDesc_perm s.todos⟩

/-- The todo a valid create submission inserts. -/
def createdTodo (s : Store) (d : FormData) (ttl : String) : Todo :=
  { pk := s.nextPk
    title := ttl
    description := d.description.getD ""
    due_date := d.due_date
    resolved := false
    created_at := s.clock
    updated_at := s.clock }

theorem todoCreatePost_valid (s : Store) (d : FormData) (ttl : String)
    (ht : d.title = some ttl) (hne : ttl ≠ "") :
    todoCreatePost s d =
      (HttpResponse.redirect "todo_list",
       { todos := s.todos ++ [createdTodo s d ttl]
         nextPk := s.nextPk + 1
         clock := s.clock + 1 }) := by
  simp [todoCreatePost, ht, hne, createdTodo]

theorem mem_map_update (l : List Todo) (pk : Nat) (upd : Todo → Todo) (u : Todo)
    (hu : u ∈ l.map (fun t => if t.pk == pk then upd t else t)) :
    ∃ t ∈ l, u = t ∨ u = upd t := by
  rcases List.mem_map.mp hu with ⟨t, ht, he⟩
  refine ⟨t, ht, ?_⟩
  by_cases h : t.pk = pk
  · right
    rw [← he]
    simp [h]
  · left
    rw [← he]
    simp [h]

/-- C5: every operation preserves the invariant that each stored todo
has a non-empty title (and a fresh store trivially satisfies it), so
every todo reachable through create, update, delete and toggle has a
non-empty title. -/
theorem ops_preserve_title_invariant (s : Store) (pk : Nat) (d : FormData)
    (h : TitlesNonEmpty s) :
    TitlesNonEmpty (todoCreatePost s d).2 ∧ TitlesNonEmpty (todoUpdatePost s pk d).2 ∧
    TitlesNonEmpty (todoDeletePost s pk).2 ∧ TitlesNonEmpty (toggle_resolved s pk).2 := by
  refine ⟨?_, ?_, ?_, ?_⟩
  · cases ht : d.title with
    | none =>
      simp only [todoCreatePost, ht]
      exact h
    | some ttl =>
      by_cases hne : ttl = ""
      · simp only [todoCreatePost, ht, if_pos hne]
        exact h
      · rw [todoCreatePost_valid s d ttl ht hne]
        intro t hmem
        rcases List.mem_append.mp hmem with hm | hm
        · exact h t hm
        · rw [List.mem_singleton.mp hm]
          exact hne
  · by_cases hhas : s.hasPk pk
    · cases ht : d.title with
      | none =>
        simp only [todoUpdatePost, ht, if_pos hhas]
        exact h
      | some ttl =>
        by_cases hne : ttl = ""
        · simp only [todoUpdatePost, ht, if_pos hhas, if_pos hne]
          exact h
        · simp only [todoUpdatePost, ht, if_pos hhas, if_neg hne]
          intro t hmem
          rcases mem_map_update _ _ _ _ hmem with ⟨u, hu, he | he⟩
          · rw [he]
            exact h u hu
          · rw [he]
            exact hne
    · simp only [todoUpdatePost, if_neg hhas]
      exact h
  · by_cases hhas : s.hasPk pk
    · simp only [todoDeletePost, if_pos hhas]
      intro t hmem
      exact h t (List.mem_of_mem_filter hmem)
    · simp only [todoDeletePost, if_neg hhas]
      exact h
  · cases hf : s.todos.find? (fun t => t.pk == pk) with
    | none =>
      simp only [toggle_resolved, hf]
      exact h
    | some t0 =>
      simp only [toggle_resolved, hf]
      intro t hmem
      rcases mem_map_update _ _ _ _ hmem with ⟨u, hu, he | he⟩
      · rw [he]
        exact h u hu
      · rw [he]
        exact h u hu

/-- Witness for C5 at a concrete store. -/
theorem ops_preserve_title_invariant_witness :
    TitlesNonEmpty (todoCreatePost sampleStore emptyTitleForm).2 ∧
    TitlesNonEmpty (todoUpdatePost sampleStore 1 emptyTitleForm).2 ∧
    TitlesNonEmpty (todoDeletePost sampleStore 1).2 ∧
    TitlesNonEmpty (toggle_resolved sampleStore 1).2 :=
  ops_preserve_title_invariant sampleStore 1 emptyTitleForm
    (by intro t hmem; rw [List.mem_singleton.mp hmem]; decide)

theorem find?_pk_isSome (l : List Todo) (t : Todo) (pk : Nat)
    (hmem : t ∈ l) (hpk : t.pk = pk) :
    ∃ u, l.find? (fun x => x.pk == pk) = some u := by
  cases hf : l.find? (fun x => x.pk == pk) with
  | some u => exact ⟨u, rfl⟩
  | none =>
    rw [List.find?_eq_none] at hf
    exact absurd (by simp [hpk] : (t.pk == pk) = true) (hf t hmem)

/-- C6: every successful mutation — a valid create, a valid update on an
existing todo, a delete of an existing todo, a toggle of an existing
todo — answers with a 302 redirect to the list page. -/
theorem success_mutations_redirect (s : Store) (pk : Nat) (d : FormData)
    (t : Todo) (ttl : String)
    (htitle : d.title = some ttl) (hne : ttl ≠ "")
    (hmem : t ∈ s.todos) (hpk : t.pk = pk) :
    ((todoCreatePost s d).1 = HttpResponse.redirect "todo_list" ∧
      (todoCreatePost s d).1.status = 302) ∧
    ((todoUpdatePost s pk d).1 = HttpResponse.redirect "todo_list" ∧
      (todoUpdatePost s pk d).1.status = 302) ∧
    ((todoDeletePost s pk).1 = HttpResponse.redirect "todo_list" ∧
      (todoDeletePost s pk).1.status = 302) ∧
    ((toggle_resolved s pk).1 = HttpResponse.redirect "todo_list" ∧
      (toggle_resolved s pk).1.status = 302) := by
  have hhas : s.hasPk pk = true := (hasPk_iff s pk).mpr ⟨t, hmem, hpk⟩
  rcases find?_pk_isSome s.todos t pk hmem hpk with ⟨u, hfind⟩
  refine ⟨⟨?_, ?_⟩, ⟨?_, ?_⟩, ⟨?_, ?_⟩, ⟨?_, ?_⟩⟩ <;>
    simp [todoCreatePost, todoUpdatePost, todoDeletePost, toggle_resolved,
      htitle, hne, hhas, hfind, HttpResponse.status]

/-- A valid create submission used to instantiate theorems. -/
def validForm : FormData :=
  { title := some "buy milk", description := none, due_date := none, resolved := none }

/-- Witness for C6 at a concrete store and submission. -/
theorem success_mutations_redirect_witness :
    ((todoCreatePost sampleStore validForm).1 = HttpResponse.redirect "todo_list" ∧
      (todoCreatePost sampleStore validForm).1.status = 302) ∧
    ((todoUpdatePost sampleStore 1 validForm).1 = HttpResponse.redirect "todo_list" ∧
      (todoUpdatePost sampleStore 1 validForm).1.status = 302) ∧
    ((todoDeletePost sampleStore 1).1 = HttpResponse.redirect "todo_list" ∧
      (todoDeletePost sampleStore 1).1.status = 302) ∧
    ((toggle_resolved sampleStore 1).1 = HttpResponse.redirect "todo_list" ∧
      (toggle_resolved sampleStore 1).1.status = 302) :=
  success_mutations_redirect sampleStore 1 validForm sampleTodo "buy milk" rfl
    (by decide) (by decide) (by decide)

/-- C7: a newly created todo has resolved false, description defaulting
to the empty string when not supplied, and no due_date when not
supplied. -/
theorem create_defaults (s : Store) (d : FormData) (ttl : String)
    (ht : d.title = some ttl) (hne : ttl ≠ "") :
    ∃ t, (todoCreatePost s d).2.todos = s.todos ++ [t] ∧
      t.resolved = false ∧
      (d.description = none → t.description = "") ∧
      (d.due_date = none → t.due_date = none) := by
  rw [todoCreatePost_valid s d ttl ht hne]
  refine ⟨createdTodo s d ttl, rfl, rfl, ?_, ?_⟩
  · intro h
    simp [createdTodo, h]
  · intro h
    simp [createdTodo, h]

/-- Witness for C7 at a concrete store and a minimal submission. -/
theorem create_defaults_witness :
    ∃ t, (todoCreatePost sampleStore validForm).2.todos = sampleStore.todos ++ [t] ∧
      t.resolved = false ∧
      (validForm.description = none → t.description = "") ∧
      (validForm.due_date = none → t.due_date = none) :=
  create_defaults sampleStore validForm "buy milk" rfl (by decide)

theorem toggle_find_step (s : Store) (pk : Nat) (t : Todo)
    (hfind : s.todos.find? (fun x => x.pk == pk) = some t) :
    (toggle_resolved s pk).2.todos.find? (fun x => x.pk == pk) =
      some { t with resolved := !t.resolved, updated_at := s.clock } := by
  simp only [toggle_resolved, hfind]
  rw [find?_pk_map_update s.todos pk
        (fun u => { u with resolved := !u.resolved, updated_at := s.clock })
        (fun _ => rfl),
      hfind]
  rfl

/-- C8: toggling twice in succession restores the todo's resolved flag
to its original value. -/
theorem toggle_involution (s : Store) (pk : Nat) (t : Todo)
    (hwf : s.WF) (hmem : t ∈ s.todos) (hpk : t.pk = pk) :
    ∃ u, findTodo (toggle_resolved (toggle_resolved s pk).2 pk).2 pk = some u ∧
      u.resolved = t.resolved := by
  have hfind := find?_pk_of_mem s.todos t pk hwf hmem hpk
  have h1 := toggle_find_step s pk t hfind
  have h2 := toggle_find_step (toggle_resolved s pk).2 pk _ h1
  refine ⟨_, h2, ?_⟩
  exact Bool.not_not t.resolved

/-- Witness for C8 at a concrete store. -/
theorem toggle_involution_witness :
    ∃ u, findTodo (toggle_resolved (toggle_resolved sampleStore 1).2 1).2 1 = some u ∧
      u.resolved = sampleTodo.resolved :=
  toggle_involution sampleStore 1 sampleTodo (by unfold Store.WF; decide)
    (by decide) (by decide)

/-- C9: toggling an existing todo changes only that todo's resolved
flag (besides updated_at): no todo is created or deleted, every other
stored todo is unchanged, and the target keeps its pk, title,
description and due_date. -/
theorem toggle_frame (s : Store) (pk : Nat) (t : Todo)
    (hwf : s.WF) (hmem : t ∈ s.todos) (hpk : t.pk = pk) :
    (toggle_resolved s pk).2.todos.length = s.todos.length ∧
    (∀ u ∈ s.todos, u.pk ≠ pk → u ∈ (toggle_resolved s pk).2.todos) ∧
    ∃ u, findTodo (toggle_resolved s pk).2 pk = some u ∧
      u.pk = t.pk ∧ u.title = t.title ∧ u.description = t.description ∧
      u.due_date = t.due_date ∧ u.resolved = !t.resolved := by
  have hfind := find?_pk_of_mem s.todos t pk hwf hmem hpk
  simp only [toggle_resolved, hfind]
  refine ⟨List.length_map _ _, ?_, ?_⟩
  · intro u hu hne
    have : (fun v => if v.pk == pk then
        { v with resolved := !v.resolved, updated_at := s.clock } else v) u = u := by
      simp [hne]
    rw [← this]
    exact List.mem_map_of_mem _ hu
  · simp only [findTodo]
    rw [find?_pk_map_update s.todos pk
          (fun u => { u with resolved := !u.resolved, updated_at := s.clock })
          (fun _ => rfl),
        hfind]
    exact ⟨_, rfl, rfl, rfl, rfl, rfl, rfl⟩

/-- Witness for C9 at a concrete store. -/
theorem toggle_frame_witness :
    (toggle_resolved sampleStore 1).2.todos.length = sampleStore.todos.length ∧
    (∀ u ∈ sampleStore.todos, u.pk ≠ 1 → u ∈ (toggle_resolved sampleStore 1).2.todos) ∧
    ∃ u, findTodo (toggle_resolved sampleStore 1).2 1 = some u ∧
      u.pk = sampleTodo.pk ∧ u.title = sampleTodo.title ∧
      u.description = sampleTodo.description ∧
      u.due_date = sampleTodo.due_date ∧ u.resolved = !sampleTodo.resolved :=
  toggle_frame sampleStore 1 sampleTodo (by unfold Store.WF; decide)
    (by decide) (by decide)

/-- C10: the create form cannot set the resolved flag: whatever the
submitted data (even when it carries a resolved value), the create route
either stores nothing or stores exactly one new todo whose resolved flag
is false. -/
theorem create_cannot_set_resolved (s : Store) (d : FormData) :
    (todoCreatePost s d).2.todos = s.todos ∨
    ∃ t, (todoCreatePost s d).2.todos = s.todos ++ [t] ∧ t.resolved = false := by
  cases ht : d.title with
  | none =>
    left
    simp only [todoCreatePost, ht]
  | some ttl =>
    by_cases hne : ttl = ""
    · left
      simp only [todoCreatePost, ht, if_pos hne]
    · right
      rw [todoCreatePost_valid s d ttl ht hne]
      exact ⟨createdTodo s d ttl, rfl, rfl⟩
